import Mathlib

/-!
Verification development for the WolkGateway repository.

The definitions below are shallow embeddings of the C++ sources:

* `SQLiteDeviceRepository.cpp` — manifest digests and the device/template store
  (`calculateSha256…`, `Repo.save`, `Repo.remove`, `Repo.findByDeviceKey`);
* `FileDownloadService.cpp` — the chunked-transfer front end
  (`FDState`, `handleFileUploadInitiate`, `abortDownload`, `deleteFileOp`);
* `Wolk.cpp` — the reconnect loop scheduled through the command buffer;
* `Application.cpp` / `Configuration.cpp` — startup configuration loading;
* `DeviceRegistrationService` — the registration buffering rules; its
  implementation file is not among the sources, so it is modelled from the
  spec (marked in the corresponding doc comments).

SQLite tables are modelled as Lean lists of rows, the Poco digest engine as a
byte-stream accumulator with an ideal (injective) SHA-256, and C++ null-pointer
dereference as an explicit `Except` error.
-/

namespace WolkGateway

/-! ## Data model (model/DataType.h, model/AlarmManifest.h, …) -/

inductive DataType
  | BOOLEAN
  | NUMERIC
  | STRING
deriving DecidableEq

inductive AlarmSeverity
  | ALERT
  | CRITICAL
  | ERROR
deriving DecidableEq

structure AlarmManifest where
  name : String
  reference : String
  message : String
  description : String
  severity : AlarmSeverity
deriving DecidableEq

structure ActuatorManifest where
  name : String
  reference : String
  description : String
  unitSymbol : String
  readingTypeName : String
  precision : Nat
  minimum : Int
  maximum : Int
  delimiter : String
  dataType : DataType
  labels : List String
deriving DecidableEq

structure SensorManifest where
  name : String
  reference : String
  description : String
  unitSymbol : String
  readingTypeName : String
  precision : Nat
  minimum : Int
  maximum : Int
  delimiter : String
  dataType : DataType
  labels : List String
deriving DecidableEq

structure ConfigurationManifest where
  name : String
  reference : String
  description : String
  minimum : Int
  maximum : Int
  delimiter : String
  defaultValue : String
  dataType : DataType
  labels : List String
deriving DecidableEq

structure DeviceManifest where
  name : String
  description : String
  protocol : String
  firmwareUpdateType : String
  alarms : List AlarmManifest
  actuators : List ActuatorManifest
  sensors : List SensorManifest
  configurations : List ConfigurationManifest
deriving DecidableEq

structure DetailedDevice where
  dname : String
  key : String
  manifest : DeviceManifest
deriving DecidableEq

/-! ## Digest engine (SQLiteDeviceRepository.cpp, calculateSha256 overloads)

The Poco `DigestEngine` consumes a byte stream: each `update` appends the
bytes of its argument.  `sha256hex` models the hex digest of the stream as an
ideal hash: injective on streams, exactly the collision-freedom the code
relies on when it dedups templates by digest. -/

structure DigestEngine where
  acc : String
deriving DecidableEq

def DigestEngine.update (e : DigestEngine) (s : String) : DigestEngine :=
  ⟨e.acc ++ s⟩

def sha256hex (s : String) : String :=
  "sha256[" ++ s ++ "]"

def DigestEngine.digestToHex (e : DigestEngine) : String :=
  sha256hex e.acc

/-- Single-letter severity code used by `calculateSha256(const AlarmManifest&)`. -/
def severityLetter : AlarmSeverity → String
  | .ALERT => "A"
  | .CRITICAL => "C"
  | .ERROR => "E"

/-- Single-letter data-type code used by the actuator, sensor and
configuration digests. -/
def dataTypeLetter : DataType → String
  | .BOOLEAN => "B"
  | .NUMERIC => "N"
  | .STRING => "S"

/-- SQLiteDeviceRepository::calculateSha256(const AlarmManifest&):
updates with name, reference, message, description, severity letter. -/
def calculateSha256Alarm (a : AlarmManifest) : String :=
  ((((((DigestEngine.mk "").update a.name).update a.reference).update
      a.message).update a.description).update (severityLetter a.severity)).digestToHex

/-- SQLiteDeviceRepository::calculateSha256(const ActuatorManifest&):
updates with name, reference, description, unitSymbol, readingTypeName,
precision, minimum, maximum, delimiter, data-type letter, then each label. -/
def calculateSha256Actuator (a : ActuatorManifest) : String :=
  let e := DigestEngine.mk ""
  let e := e.update a.name
  let e := e.update a.reference
  let e := e.update a.description
  let e := e.update a.unitSymbol
  let e := e.update a.readingTypeName
  let e := e.update (toString a.precision)
  let e := e.update (toString a.minimum)
  let e := e.update (toString a.maximum)
  let e := e.update a.delimiter
  let e := e.update (dataTypeLetter a.dataType)
  let e := a.labels.foldl (fun e l => e.update l) e
  e.digestToHex

/-- SQLiteDeviceRepository::calculateSha256(const SensorManifest&): same
update order as the actuator digest. -/
def calculateSha256Sensor (s : SensorManifest) : String :=
  let e := DigestEngine.mk ""
  let e := e.update s.name
  let e := e.update s.reference
  let e := e.update s.description
  let e := e.update s.unitSymbol
  let e := e.update s.readingTypeName
  let e := e.update (toString s.precision)
  let e := e.update (toString s.minimum)
  let e := e.update (toString s.maximum)
  let e := e.update s.delimiter
  let e := e.update (dataTypeLetter s.dataType)
  let e := s.labels.foldl (fun e l => e.update l) e
  e.digestToHex

/-- SQLiteDeviceRepository::calculateSha256(const ConfigurationManifest&):
updates with name, reference, description, minimum, maximum, delimiter,
defaultValue, data-type letter, then each label. -/
def calculateSha256Configuration (c : ConfigurationManifest) : String :=
  let e := DigestEngine.mk ""
  let e := e.update c.name
  let e := e.update c.reference
  let e := e.update c.description
  let e := e.update (toString c.minimum)
  let e := e.update (toString c.maximum)
  let e := e.update c.delimiter
  let e := e.update c.defaultValue
  let e := e.update (dataTypeLetter c.dataType)
  let e := c.labels.foldl (fun e l => e.update l) e
  e.digestToHex

/-- SQLiteDeviceRepository::calculateSha256(const DeviceManifest&):
updates with name, description, protocol, firmwareUpdateType, then the child
digests of alarms, actuators, sensors and configurations in definition
order. -/
def calculateSha256Device (m : DeviceManifest) : String :=
  let e := DigestEngine.mk ""
  let e := e.update m.name
  let e := e.update m.description
  let e := e.update m.protocol
  let e := e.update m.firmwareUpdateType
  let e := m.alarms.foldl (fun e a => e.update (calculateSha256Alarm a)) e
  let e := m.actuators.foldl (fun e a => e.update (calculateSha256Actuator a)) e
  let e := m.sensors.foldl (fun e s => e.update (calculateSha256Sensor s)) e
  let e := m.configurations.foldl (fun e c => e.update (calculateSha256Configuration c)) e
  e.digestToHex

/-! ### Spec-side digest formulas (spec §4.4, "Digest order") -/

/-- Concatenation of a list of strings, in order. -/
def strConcat : List String → String
  | [] => ""
  | s :: rest => s ++ strConcat rest

/-- Digest of an alarm manifest as the spec words it: sha256 over all of the
alarm fields in a fixed order, the severity encoded as a single letter
(A, C or E). -/
def specAlarmDigest (a : AlarmManifest) : String :=
  sha256hex (a.name ++ a.reference ++ a.message ++ a.description ++
    severityLetter a.severity)

/-- Digest of an actuator manifest as the spec words it: all of the actuator
fields in a fixed order, the data type encoded as a single letter
(B, N or S). -/
def specActuatorDigest (a : ActuatorManifest) : String :=
  sha256hex (a.name ++ a.reference ++ a.description ++ a.unitSymbol ++
    a.readingTypeName ++ toString a.precision ++ toString a.minimum ++
    toString a.maximum ++ a.delimiter ++ dataTypeLetter a.dataType ++
    strConcat a.labels)

/-- Digest of a sensor manifest as the spec words it. -/
def specSensorDigest (s : SensorManifest) : String :=
  sha256hex (s.name ++ s.reference ++ s.description ++ s.unitSymbol ++
    s.readingTypeName ++ toString s.precision ++ toString s.minimum ++
    toString s.maximum ++ s.delimiter ++ dataTypeLetter s.dataType ++
    strConcat s.labels)

/-- Digest of a configuration manifest as the spec words it. -/
def specConfigurationDigest (c : ConfigurationManifest) : String :=
  sha256hex (c.name ++ c.reference ++ c.description ++ toString c.minimum ++
    toString c.maximum ++ c.delimiter ++ c.defaultValue ++
    dataTypeLetter c.dataType ++ strConcat c.labels)

/-- Canonical template digest as the spec words it:
sha256(name ‖ description ‖ protocol ‖ firmwareUpdateType ‖ digests(alarms)
‖ digests(actuators) ‖ digests(sensors) ‖ digests(configurations)). -/
def specDeviceDigest (m : DeviceManifest) : String :=
  sha256hex (m.name ++ m.description ++ m.protocol ++ m.firmwareUpdateType ++
    strConcat (m.alarms.map specAlarmDigest) ++
    strConcat (m.actuators.map specActuatorDigest) ++
    strConcat (m.sensors.map specSensorDigest) ++
    strConcat (m.configurations.map specConfigurationDigest))

/-- Template equivalence as the spec defines it (§3): two templates are
equivalent iff their canonical SHA-256 digests are equal. -/
def equivalentTemplates (m₁ m₂ : DeviceManifest) : Prop :=
  calculateSha256Device m₁ = calculateSha256Device m₂

theorem foldl_update_acc {α : Type} (f : α → String) :
    ∀ (l : List α) (e : DigestEngine),
      (l.foldl (fun e x => e.update (f x)) e).acc = e.acc ++ strConcat (l.map f)
  | [], e => by simp [strConcat]
  | x :: rest, e => by
    rw [List.foldl_cons, foldl_update_acc f rest]
    simp [DigestEngine.update, strConcat, String.append_assoc]

theorem foldl_update_labels :
    ∀ (l : List String) (e : DigestEngine),
      (l.foldl (fun e s => e.update s) e).acc = e.acc ++ strConcat l
  | [], e => by simp [strConcat]
  | s :: rest, e => by
    rw [List.foldl_cons, foldl_update_labels rest]
    simp [DigestEngine.update, strConcat, String.append_assoc]

theorem alarmDigest_eq (a : AlarmManifest) :
    calculateSha256Alarm a = specAlarmDigest a := by
  simp [calculateSha256Alarm, specAlarmDigest, DigestEngine.digestToHex,
    DigestEngine.update, String.empty_append, String.append_assoc]

theorem actuatorDigest_eq (a : ActuatorManifest) :
    calculateSha256Actuator a = specActuatorDigest a := by
  simp only [calculateSha256Actuator, specActuatorDigest, DigestEngine.digestToHex]
  simp only [foldl_update_labels]
  simp [DigestEngine.update, String.empty_append, String.append_assoc]

theorem sensorDigest_eq (s : SensorManifest) :
    calculateSha256Sensor s = specSensorDigest s := by
  simp only [calculateSha256Sensor, specSensorDigest, DigestEngine.digestToHex]
  simp only [foldl_update_labels]
  simp [DigestEngine.update, String.empty_append, String.append_assoc]

theorem configurationDigest_eq (c : ConfigurationManifest) :
    calculateSha256Configuration c = specConfigurationDigest c := by
  simp only [calculateSha256Configuration, specConfigurationDigest,
    DigestEngine.digestToHex]
  simp only [foldl_update_labels]
  simp [DigestEngine.update, String.empty_append, String.append_assoc]

theorem deviceDigest_eq (m : DeviceManifest) :
    calculateSha256Device m = specDeviceDigest m := by
  have ha : calculateSha256Alarm = specAlarmDigest := funext alarmDigest_eq
  have hb : calculateSha256Actuator = specActuatorDigest := funext actuatorDigest_eq
  have hc : calculateSha256Sensor = specSensorDigest := funext sensorDigest_eq
  have hd : calculateSha256Configuration = specConfigurationDigest :=
    funext configurationDigest_eq
  simp only [calculateSha256Device, specDeviceDigest, DigestEngine.digestToHex]
  simp only [foldl_update_acc]
  simp [DigestEngine.update, String.empty_append, String.append_assoc, ha, hb, hc, hd]

/-- C8: the canonical template digest is sha256 over name, description,
protocol, firmwareUpdateType, then the child digests of alarms, actuators,
sensors and configurations in definition order; each child digest covers all
of that child's own fields in a fixed order with single-letter enum codes
(B/N/S for the data type, A/C/E for the alarm severity); and two templates
are equivalent iff this digest is equal. -/
theorem c8_template_digest_canonical :
    (∀ m : DeviceManifest, calculateSha256Device m = specDeviceDigest m) ∧
    (∀ a : AlarmManifest, calculateSha256Alarm a = specAlarmDigest a) ∧
    (∀ a : ActuatorManifest, calculateSha256Actuator a = specActuatorDigest a) ∧
    (∀ s : SensorManifest, calculateSha256Sensor s = specSensorDigest s) ∧
    (∀ c : ConfigurationManifest,
      calculateSha256Configuration c = specConfigurationDigest c) ∧
    (∀ m₁ m₂ : DeviceManifest,
      equivalentTemplates m₁ m₂ ↔ calculateSha256Device m₁ = calculateSha256Device m₂) :=
  ⟨deviceDigest_eq, alarmDigest_eq, actuatorDigest_eq, sensorDigest_eq,
    configurationDigest_eq, fun _ _ => Iff.rfl⟩

/-! ## Device repository (SQLiteDeviceRepository.cpp)

The SQLite tables are modelled as lists of rows.  A `ManifestRow` is a row of
`device_manifest` (together with the child-manifest rows it owns, folded back
into a `DeviceManifest` value, as `findByDeviceKey` reconstructs them); a
`DeviceRow` is a row of `device`.  `AUTOINCREMENT` ids are modelled by
`nextId`. -/

structure ManifestRow where
  mid : Nat
  sha : String
  content : DeviceManifest
deriving DecidableEq

structure DeviceRow where
  key : String
  dname : String
  mid : Nat
deriving DecidableEq

structure Repo where
  manifests : List ManifestRow
  devices : List DeviceRow
  nextId : Nat
deriving DecidableEq

def emptyRepo : Repo := ⟨[], [], 0⟩

/-- SELECT count(*) FROM device WHERE device.key=? ≠ 0. -/
def Repo.containsDeviceWithKey (r : Repo) (k : String) : Bool :=
  r.devices.any (fun dr => dr.key == k)

/-- SQLiteDeviceRepository::save for a key that is not yet present: dedup the
manifest by digest, inserting the device row against the matching manifest
row (INSERT INTO device SELECT ?, ?, id FROM device_manifest WHERE
sha256=?), or insert a fresh manifest row plus the device row in one
transaction. -/
def Repo.saveFresh (r : Repo) (d : DetailedDevice) : Repo :=
  let sha := calculateSha256Device d.manifest
  if r.manifests.any (fun mr => mr.sha == sha) then
    { r with
      devices := r.devices ++
        (r.manifests.filter (fun mr => mr.sha == sha)).map
          (fun mr => ⟨d.key, d.dname, mr.mid⟩) }
  else
    { manifests := r.manifests ++ [⟨r.nextId, sha, d.manifest⟩],
      devices := r.devices ++ [⟨d.key, d.dname, r.nextId⟩],
      nextId := r.nextId + 1 }

/-- SQLiteDeviceRepository::remove: look up the referenced manifest id; if the
key is absent do nothing; if other devices still reference the manifest
delete only the device row; otherwise delete the device row and the manifest
row in one transaction. -/
def Repo.remove (r : Repo) (k : String) : Repo :=
  match r.devices.find? (fun dr => dr.key == k) with
  | none => r
  | some dr =>
    if r.devices.countP (fun e => e.mid == dr.mid) ≠ 1 then
      { r with devices := r.devices.filter (fun e => !(e.key == k)) }
    else
      { r with
        devices := r.devices.filter (fun e => !(e.key == k)),
        manifests := r.manifests.filter (fun mr => !(mr.mid == dr.mid)) }

/-- SQLiteDeviceRepository::save: a present key goes through `update`, which
is remove-then-save. -/
def Repo.save (r : Repo) (d : DetailedDevice) : Repo :=
  if r.containsDeviceWithKey d.key then (r.remove d.key).saveFresh d
  else r.saveFresh d

/-- SQLiteDeviceRepository::findByDeviceKey: reconstruct the device and its
manifest from the normalized tables; absent rows give nullptr. -/
def Repo.findByDeviceKey (r : Repo) (k : String) : Option DetailedDevice :=
  match r.devices.find? (fun dr => dr.key == k) with
  | none => none
  | some dr =>
    match r.manifests.find? (fun mr => mr.mid == dr.mid) with
    | none => none
    | some mr => some ⟨dr.dname, k, mr.content⟩

def Repo.findAllDeviceKeys (r : Repo) : List String :=
  r.devices.map (fun dr => dr.key)

/-- Well-formedness of the store: manifest ids and digests are unique, device
keys are unique (`key` is the PRIMARY KEY of `device`), every device row
references an existing manifest row, and `nextId` is fresh. -/
def Repo.wf (r : Repo) : Prop :=
  (r.manifests.map (fun mr => mr.mid)).Nodup ∧
  (r.manifests.map (fun mr => mr.sha)).Nodup ∧
  (r.devices.map (fun dr => dr.key)).Nodup ∧
  (∀ dr ∈ r.devices, dr.mid ∈ r.manifests.map (fun mr => mr.mid)) ∧
  (∀ mr ∈ r.manifests, mr.mid < r.nextId)

instance (r : Repo) : Decidable r.wf := by
  unfold Repo.wf
  exact inferInstance

/-! ### List helper lemmas -/

theorem two_le_countP {α : Type} (p : α → Bool) :
    ∀ {l : List α} {a b : α}, a ∈ l → b ∈ l → a ≠ b → p a = true → p b = true →
      2 ≤ l.countP p := by
  intro l
  induction l with
  | nil => intro a b ha; exact absurd ha (List.not_mem_nil a)
  | cons c t ih =>
    intro a b ha hb hne hpa hpb
    rw [List.countP_cons]
    rcases List.mem_cons.mp ha with rfl | hat
    · rcases List.mem_cons.mp hb with rfl | hbt
      · exact absurd rfl hne
      · have h1 : 0 < t.countP p := List.countP_pos_iff.mpr ⟨b, hbt, hpb⟩
        rw [hpa, if_pos rfl]; omega
    · rcases List.mem_cons.mp hb with rfl | hbt
      · have h1 : 0 < t.countP p := List.countP_pos_iff.mpr ⟨a, hat, hpa⟩
        rw [hpb, if_pos rfl]; omega
      · have h2 := ih hat hbt hne hpa hpb
        omega

theorem countP_eq_one_of_unique {α : Type} (p : α → Bool) :
    ∀ {l : List α} {a : α}, l.Nodup → a ∈ l → p a = true →
      (∀ b ∈ l, p b = true → b = a) → l.countP p = 1 := by
  intro l
  induction l with
  | nil => intro a _ ha; exact absurd ha (List.not_mem_nil a)
  | cons c t ih =>
    intro a hnd ha hpa huniq
    have hct : c ∉ t := (List.nodup_cons.mp hnd).1
    have htnd : t.Nodup := (List.nodup_cons.mp hnd).2
    rw [List.countP_cons]
    rcases List.mem_cons.mp ha with rfl | hat
    · have hzero : t.countP p = 0 := by
        rw [List.countP_eq_zero]
        intro b hb hpb
        exact hct (huniq b (List.mem_cons_of_mem a hb) hpb ▸ hb)
      simp [hzero, hpa]
    · have hpc : p c = false := by
        by_contra hc
        have : c = a := huniq c (List.mem_cons_self c t) (by revert hc; cases p c <;> simp)
        exact hct (this ▸ hat)
      rw [ih htnd hat hpa (fun b hb hpb => huniq b (List.mem_cons_of_mem c hb) hpb)]
      simp [hpc]

theorem length_filter_le_one_of_nodup_map {α β : Type} [BEq β] [LawfulBEq β]
    (f : α → β) (v : β) :
    ∀ {l : List α}, (l.map f).Nodup → (l.filter (fun x => f x == v)).length ≤ 1 := by
  intro l
  induction l with
  | nil => intro _; simp
  | cons c t ih =>
    intro hnd
    rw [List.map_cons, List.nodup_cons] at hnd
    by_cases hc : f c = v
    · have hnil : t.filter (fun x => f x == v) = [] := by
        rw [List.filter_eq_nil_iff]
        intro x hx hfx
        exact hnd.1 (by
          have : f x = v := by simpa using hfx
          rw [hc, ← this]
          exact List.mem_map_of_mem f hx)
      simp [List.filter_cons, hc, hnil]
    · simp only [List.filter_cons]
      have : (f c == v) = false := by simpa using hc
      rw [this]
      exact ih hnd.2

/-! ### Repository invariant preservation -/

theorem Repo.wf_remove {r : Repo} (k : String) (h : r.wf) : (r.remove k).wf := by
  obtain ⟨hm, hs, hkeys, href, hfresh⟩ := h
  unfold Repo.remove
  split
  · exact ⟨hm, hs, hkeys, href, hfresh⟩
  · next dr hfind =>
    have hdrmem : dr ∈ r.devices := List.mem_of_find?_eq_some hfind
    have hdrkey : dr.key = k := by simpa using List.find?_some hfind
    have hkeys2 : ((r.devices.filter (fun e => !(e.key == k))).map
        (fun dr => dr.key)).Nodup :=
      hkeys.sublist ((List.filter_sublist _).map _)
    by_cases hcount : r.devices.countP (fun e => e.mid == dr.mid) = 1
    · rw [if_neg (fun hC => hC hcount)]
      refine ⟨hm.sublist ((List.filter_sublist _).map _),
        hs.sublist ((List.filter_sublist _).map _), hkeys2, ?_, ?_⟩
      · intro e he
        have hemem : e ∈ r.devices := List.mem_of_mem_filter he
        have hekey : e.key ≠ k := by
          have := (List.mem_filter.mp he).2
          simpa using this
        have hne : e ≠ dr := fun heq => hekey (heq ▸ hdrkey)
        have hmidne : e.mid ≠ dr.mid := by
          intro hmid
          have h2 : 2 ≤ r.devices.countP (fun x => x.mid == dr.mid) :=
            two_le_countP _ hemem hdrmem hne (by simp [hmid]) (by simp)
          omega
        obtain ⟨mr, hmr, hmid⟩ := List.mem_map.mp (href e hemem)
        refine List.mem_map.mpr ⟨mr, List.mem_filter.mpr ⟨hmr, ?_⟩, hmid⟩
        simp [hmid, hmidne]
      · intro mr hmr
        exact hfresh mr (List.mem_of_mem_filter hmr)
    · rw [if_pos hcount]
      refine ⟨hm, hs, hkeys2, ?_, hfresh⟩
      intro e he
      exact href e (List.mem_of_mem_filter he)

theorem Repo.contains_remove_self (r : Repo) (k : String) :
    (r.remove k).containsDeviceWithKey k = false := by
  have hall : ∀ e ∈ (r.remove k).devices, (e.key == k) = false := by
    unfold Repo.remove
    split
    · next hfind =>
      intro e he
      have := List.find?_eq_none.mp hfind e he
      simpa using this
    · next dr hfind =>
      split <;>
        · intro e he
          have := (List.mem_filter.mp he).2
          simpa using this
  unfold Repo.containsDeviceWithKey
  rw [List.any_eq_false]
  intro e he
  simp [hall e he]

theorem Repo.find_remove_self (r : Repo) (k : String) :
    (r.remove k).findByDeviceKey k = none := by
  have hall : ∀ e ∈ (r.remove k).devices, (e.key == k) = false := by
    have h := Repo.contains_remove_self r k
    unfold Repo.containsDeviceWithKey at h
    rw [List.any_eq_false] at h
    intro e he
    simpa using h e he
  unfold Repo.findByDeviceKey
  rw [List.find?_eq_none.mpr (fun e he hp => by simp [hall e he] at hp)]

theorem Repo.wf_saveFresh {r : Repo} {d : DetailedDevice} (h : r.wf)
    (hk : r.containsDeviceWithKey d.key = false) : (r.saveFresh d).wf := by
  obtain ⟨hm, hs, hkeys, href, hfresh⟩ := h
  have hkabs : ∀ e ∈ r.devices, e.key ≠ d.key := by
    unfold Repo.containsDeviceWithKey at hk
    rw [List.any_eq_false] at hk
    intro e he heq
    exact hk e he (by simp [heq])
  unfold Repo.saveFresh
  by_cases hsha :
      r.manifests.any (fun mr => mr.sha == calculateSha256Device d.manifest) = true
  · rw [if_pos hsha]
    have hflen : (r.manifests.filter
        (fun mr => mr.sha == calculateSha256Device d.manifest)).length ≤ 1 :=
      length_filter_le_one_of_nodup_map _ _ hs
    obtain ⟨mr0, hfl⟩ : ∃ mr0, r.manifests.filter
        (fun mr => mr.sha == calculateSha256Device d.manifest) = [mr0] := by
      obtain ⟨x, hx, hpx⟩ := List.any_eq_true.mp hsha
      have hxin : x ∈ r.manifests.filter
          (fun mr => mr.sha == calculateSha256Device d.manifest) :=
        List.mem_filter.mpr ⟨hx, hpx⟩
      match hfl2 : r.manifests.filter
          (fun mr => mr.sha == calculateSha256Device d.manifest) with
      | [] => rw [hfl2] at hxin; exact absurd hxin (List.not_mem_nil x)
      | [y] => exact ⟨y, hfl2⟩
      | y :: z :: rest => rw [hfl2] at hflen; simp at hflen
    rw [hfl]
    have hmr0 : mr0 ∈ r.manifests :=
      List.mem_of_mem_filter (hfl ▸ List.mem_singleton_self mr0)
    refine ⟨hm, hs, ?_, ?_, hfresh⟩
    · rw [List.map_append]
      refine List.Nodup.append hkeys (by simp) ?_
      intro a ha hb
      simp only [List.map_cons, List.map_nil, List.mem_singleton] at hb
      obtain ⟨e, he, hek⟩ := List.mem_map.mp ha
      exact hkabs e he (hek.trans hb)
    · intro e he
      rcases List.mem_append.mp he with hold | hnew
      · exact href e hold
      · simp only [List.map_cons, List.map_nil, List.mem_singleton] at hnew
        subst hnew
        exact List.mem_map.mpr ⟨mr0, hmr0, rfl⟩
  · rw [if_neg hsha]
    have hshaabs : ∀ mr ∈ r.manifests, mr.sha ≠ calculateSha256Device d.manifest := by
      rw [Bool.not_eq_true, List.any_eq_false] at hsha
      intro mr hmr heq
      exact hsha mr hmr (by simp [heq])
    refine ⟨?_, ?_, ?_, ?_, ?_⟩
    · rw [List.map_append]
      refine List.Nodup.append hm (by simp) ?_
      intro a ha hb
      simp only [List.map_cons, List.map_nil, List.mem_singleton] at hb
      obtain ⟨mr, hmr, hmid⟩ := List.mem_map.mp ha
      have := hfresh mr hmr
      omega
    · rw [List.map_append]
      refine List.Nodup.append hs (by simp) ?_
      intro a ha hb
      simp only [List.map_cons, List.map_nil, List.mem_singleton] at hb
      obtain ⟨mr, hmr, hsha2⟩ := List.mem_map.mp ha
      exact hshaabs mr hmr (hsha2.trans hb)
    · rw [List.map_append]
      refine List.Nodup.append hkeys (by simp) ?_
      intro a ha hb
      simp only [List.map_cons, List.map_nil, List.mem_singleton] at hb
      obtain ⟨e, he, hek⟩ := List.mem_map.mp ha
      exact hkabs e he (hek.trans hb)
    · intro e he
      rw [List.map_append]
      rcases List.mem_append.mp he with hold | hnew
      · exact List.mem_append.mpr (Or.inl (href e hold))
      · simp only [List.mem_singleton] at hnew
        subst hnew
        exact List.mem_append.mpr (Or.inr (by simp))
    · intro mr hmr
      show mr.mid < r.nextId + 1
      rcases List.mem_append.mp hmr with hold | hnew
      · have := hfresh mr hold
        omega
      · simp only [List.mem_singleton] at hnew
        subst hnew
        simp

theorem Repo.wf_save {r : Repo} (d : DetailedDevice) (h : r.wf) : (r.save d).wf := by
  unfold Repo.save
  by_cases hc : r.containsDeviceWithKey d.key = true
  · rw [if_pos hc]
    exact Repo.wf_saveFresh (Repo.wf_remove d.key h) (Repo.contains_remove_self r d.key)
  · rw [if_neg hc]
    exact Repo.wf_saveFresh h (by revert hc; cases r.containsDeviceWithKey d.key <;> simp)

/-- In a well-formed store every device row references exactly one manifest
row. -/
theorem Repo.referenced_once {r : Repo} (h : r.wf) :
    ∀ dr ∈ r.devices, r.manifests.countP (fun mr => mr.mid == dr.mid) = 1 := by
  intro dr hdr
  obtain ⟨hm, _, _, href, _⟩ := h
  obtain ⟨mr, hmr, hmid⟩ := List.mem_map.mp (href dr hdr)
  refine countP_eq_one_of_unique _ hm.of_map hmr (by simp [hmid]) ?_
  intro mr2 hmr2 hp
  have hmid2 : mr2.mid = mr.mid := by
    have : mr2.mid = dr.mid := by simpa using hp
    rw [this, ← hmid]
  exact List.inj_on_of_nodup_map hm hmr2 hmr hmid2

/-! ### C1 and C5 -/

/-- C1: for devices a and b with distinct keys whose templates have equal
canonical digests, after save(a) followed by save(b) starting from an empty
repository the store holds exactly one template (device_manifest) row and
both device rows reference it; save and remove preserve well-formedness, and
in any well-formed store every persisted device references exactly one
template row. -/
theorem c1_template_dedup (a b : DetailedDevice)
    (hkey : a.key ≠ b.key)
    (hdig : calculateSha256Device a.manifest = calculateSha256Device b.manifest) :
    (((emptyRepo.save a).save b).manifests.length = 1 ∧
      ((emptyRepo.save a).save b).devices.length = 2 ∧
      (∀ dr ∈ ((emptyRepo.save a).save b).devices,
        ∀ mr ∈ ((emptyRepo.save a).save b).manifests, dr.mid = mr.mid) ∧
      (∀ dr ∈ ((emptyRepo.save a).save b).devices,
        ((emptyRepo.save a).save b).manifests.countP
          (fun mr => mr.mid == dr.mid) = 1)) ∧
    (∀ (r : Repo) (d : DetailedDevice), r.wf → (r.save d).wf) ∧
    (∀ (r : Repo) (k : String), r.wf → (r.remove k).wf) ∧
    (∀ r : Repo, r.wf → ∀ dr ∈ r.devices,
      r.manifests.countP (fun mr => mr.mid == dr.mid) = 1) := by
  refine ⟨?_, fun r d h => Repo.wf_save d h, fun r k h => Repo.wf_remove k h,
    fun r h => Repo.referenced_once h⟩
  have h1 : emptyRepo.save a =
      ⟨[⟨0, calculateSha256Device a.manifest, a.manifest⟩],
        [⟨a.key, a.dname, 0⟩], 1⟩ := rfl
  have h2 : (emptyRepo.save a).save b =
      ⟨[⟨0, calculateSha256Device a.manifest, a.manifest⟩],
        [⟨a.key, a.dname, 0⟩, ⟨b.key, b.dname, 0⟩], 1⟩ := by
    rw [h1]
    simp [Repo.save, Repo.saveFresh, Repo.containsDeviceWithKey, hkey, hdig]
  rw [h2]
  refine ⟨rfl, rfl, ?_, ?_⟩
  · intro dr hdr mr hmr
    simp only [List.mem_cons, List.mem_singleton, List.not_mem_nil, or_false] at hdr hmr
    rcases hdr with rfl | rfl <;> rw [hmr]
  · intro dr hdr
    simp only [List.mem_cons, List.mem_singleton, List.not_mem_nil, or_false] at hdr
    rcases hdr with rfl | rfl <;> simp [List.countP_cons]

/-- Witness for C1 at concrete devices with distinct keys and the same
template. -/
theorem c1_template_dedup_witness :
    ((emptyRepo.save ⟨"Device A", "A",
        ⟨"Manifest name", "Manifest description", "JsonProtocol", "DFUProtocol",
          [], [], [], []⟩⟩).save
      ⟨"Device B", "B",
        ⟨"Manifest name", "Manifest description", "JsonProtocol", "DFUProtocol",
          [], [], [], []⟩⟩).manifests.length = 1 :=
  (c1_template_dedup
    ⟨"Device A", "A",
      ⟨"Manifest name", "Manifest description", "JsonProtocol", "DFUProtocol",
        [], [], [], []⟩⟩
    ⟨"Device B", "B",
      ⟨"Manifest name", "Manifest description", "JsonProtocol", "DFUProtocol",
        [], [], [], []⟩⟩
    (by decide) rfl).1.1

/-- C5: remove(k) followed by findByDeviceKey(k) returns "not found"; when
other devices still reference k's template row, remove deletes only the
device row; when k's device was the last referent it deletes both the device
row and the template row. -/
theorem c5_remove_semantics :
    (∀ (r : Repo) (k : String), (r.remove k).findByDeviceKey k = none) ∧
    (∀ (r : Repo) (k : String) (dr : DeviceRow), r.wf →
      r.devices.find? (fun e => e.key == k) = some dr →
      ((∃ e ∈ r.devices, e.key ≠ k ∧ e.mid = dr.mid) →
        (r.remove k).manifests = r.manifests ∧
        (r.remove k).devices = r.devices.filter (fun e => !(e.key == k))) ∧
      ((∀ e ∈ r.devices, e.mid = dr.mid → e.key = k) →
        (r.remove k).manifests =
          r.manifests.filter (fun mr => !(mr.mid == dr.mid)) ∧
        (r.remove k).devices = r.devices.filter (fun e => !(e.key == k)))) := by
  refine ⟨Repo.find_remove_self, ?_⟩
  intro r k dr h hfind
  obtain ⟨hm, hs, hkeys, href, hfresh⟩ := h
  have hdrmem : dr ∈ r.devices := List.mem_of_find?_eq_some hfind
  have hdrkey : dr.key = k := by simpa using List.find?_some hfind
  constructor
  · rintro ⟨e, he, hek, hemid⟩
    have hne : e ≠ dr := fun heq => hek (heq ▸ hdrkey)
    have h2 : 2 ≤ r.devices.countP (fun x => x.mid == dr.mid) :=
      two_le_countP _ he hdrmem hne (by simp [hemid]) (by simp)
    have hcount : r.devices.countP (fun x => x.mid == dr.mid) ≠ 1 := by omega
    unfold Repo.remove
    rw [hfind]
    dsimp only
    rw [if_pos hcount]
    exact ⟨rfl, rfl⟩
  · intro hlast
    have hdevnd : r.devices.Nodup := hkeys.of_map
    have hcount : r.devices.countP (fun x => x.mid == dr.mid) = 1 := by
      refine countP_eq_one_of_unique _ hdevnd hdrmem (by simp) ?_
      intro e he hp
      have hemid : e.mid = dr.mid := by simpa using hp
      have hek : e.key = dr.key := (hlast e he hemid).trans hdrkey.symm
      exact List.inj_on_of_nodup_map hkeys he hdrmem hek
    unfold Repo.remove
    rw [hfind]
    dsimp only
    rw [if_neg (fun hC => hC hcount)]
    exact ⟨rfl, rfl⟩

/-- Witness for C5 at a concrete store in which "A" and "B" share the single
template row: removing "A" keeps the template row and then fails to find
"A". -/
theorem c5_remove_semantics_witness :
    ((Repo.mk
        [⟨0, "sha", ⟨"n", "d", "p", "f", [], [], [], []⟩⟩]
        [⟨"A", "da", 0⟩, ⟨"B", "db", 0⟩] 1).remove "A").findByDeviceKey "A" =
        none ∧
    ((Repo.mk
        [⟨0, "sha", ⟨"n", "d", "p", "f", [], [], [], []⟩⟩]
        [⟨"A", "da", 0⟩, ⟨"B", "db", 0⟩] 1).remove "A").manifests =
      [⟨0, "sha", ⟨"n", "d", "p", "f", [], [], [], []⟩⟩] :=
  ⟨c5_remove_semantics.1 _ "A",
    ((c5_remove_semantics.2
        (Repo.mk
          [⟨0, "sha", ⟨"n", "d", "p", "f", [], [], [], []⟩⟩]
          [⟨"A", "da", 0⟩, ⟨"B", "db", 0⟩] 1)
        "A" ⟨"A", "da", 0⟩
        (by decide) (by decide)).1
      ⟨⟨"B", "db", 0⟩, by decide, by decide, rfl⟩).1⟩

/-! ## File download service (FileDownloadService.cpp)

State of the service: the `m_activeDownloads` table (name → (expected hash,
completed flag); the `FileDownloader` object held in the tuple is absent from
the sources and modelled from the spec where noted), the `m_activeDownload`
name, the file repository, and the trace of outbound platform messages. -/

inductive FileTransferStatus
  | FILE_TRANSFER
  | FILE_READY
  | ABORTED
deriving DecidableEq

inductive FileTransferError
  | UNSPECIFIED_ERROR
  | TRANSFER_PROTOCOL_DISABLED
  | UNSUPPORTED_FILE_SIZE
  | MALFORMED_RESPONSE
  | FILE_HASH_MISMATCH
  | FILE_SYSTEM_ERROR
  | RETRY_COUNT_EXCEEDED
deriving DecidableEq

inductive UploadStatus
  | status (s : FileTransferStatus)
  | err (e : FileTransferError)
deriving DecidableEq

structure FileInfo where
  name : String
  hash : String
  path : String
deriving DecidableEq

inductive FDOut
  | uploadStatus (fileName : String) (st : UploadStatus)
  | packetRequest (fileName : String) (chunk : Nat)
  | fileListUpdate (names : List String)
deriving DecidableEq

structure DownloadEntry where
  hash : String
  completed : Bool
deriving DecidableEq

structure FDState where
  maxFileSize : Nat
  maxPacketSize : Nat
  activeDownloads : List (String × DownloadEntry)
  activeDownload : String
  fileRepo : List FileInfo
  out : List FDOut
deriving DecidableEq

/-- FileDownloadService::sendStatus: emit a FileUploadStatus message. -/
def FDState.sendStatus (st : FDState) (name : String) (s : UploadStatus) : FDState :=
  { st with out := st.out ++ [.uploadStatus name s] }

/-- FileRepository::getFileInfo. -/
def FDState.getFileInfo (st : FDState) (name : String) : Option FileInfo :=
  st.fileRepo.find? (fun fi => fi.name == name)

/-- FileDownloadService::flagCompletedDownload: set the completed flag of the
entry so the garbage collector reaps it. -/
def FDState.flagCompletedDownload (st : FDState) (key : String) : FDState :=
  { st with
    activeDownloads := st.activeDownloads.map
      (fun p => if p.1 == key then (p.1, DownloadEntry.mk p.2.hash true) else p) }

/-- FileDownloadService::downloadFailed. -/
def FDState.downloadFailed (st : FDState) (name : String) (e : FileTransferError) :
    FDState :=
  (st.flagCompletedDownload name).sendStatus name (.err e)

/-- Modelled from the spec: FileDownloader::download (FileDownloader.cpp is
not among the sources).  Spec §4.9: the total size is bounded by
`maxFileSize` — an oversized transfer fails through the failure callback
with `UNSUPPORTED_FILE_SIZE` (spec §7 error taxonomy) before any chunk is
requested — and a `FilePacketRequest` is emitted toward the platform for
each expected chunk, starting at index 0. -/
def FDState.downloaderStart (st : FDState) (name : String) (size : Nat) : FDState :=
  if st.maxFileSize < size then st.downloadFailed name .UNSUPPORTED_FILE_SIZE
  else { st with out := st.out ++ [.packetRequest name 0] }

/-- FileDownloadService::downloadFile: an already-active download with a
different hash is an error, with the same hash re-reports FILE_TRANSFER;
otherwise report FILE_TRANSFER, create the entry, set `m_activeDownload`,
and start the downloader. -/
def FDState.downloadFile (st : FDState) (fileName : String) (fileSize : Nat)
    (fileHash : String) : FDState :=
  match st.activeDownloads.find? (fun p => p.1 == fileName) with
  | some p =>
    if p.2.hash ≠ fileHash then st.sendStatus fileName (.err .UNSPECIFIED_ERROR)
    else st.sendStatus fileName (.status .FILE_TRANSFER)
  | none =>
    let st1 := st.sendStatus fileName (.status .FILE_TRANSFER)
    let st2 := { st1 with
      activeDownloads := st1.activeDownloads ++ [(fileName, DownloadEntry.mk fileHash false)],
      activeDownload := fileName }
    st2.downloaderStart fileName fileSize

/-- FileDownloadService::handle(const FileUploadInitiate&): empty name, zero
size or empty hash are UNSPECIFIED_ERROR; a known file with a different hash
is FILE_HASH_MISMATCH, with the same hash FILE_READY; otherwise start the
download. -/
def FDState.handleFileUploadInitiate (st : FDState) (name : String) (size : Nat)
    (hash : String) : FDState :=
  if name = "" then st.sendStatus name (.err .UNSPECIFIED_ERROR)
  else if size = 0 then st.sendStatus name (.err .UNSPECIFIED_ERROR)
  else if hash = "" then st.sendStatus name (.err .UNSPECIFIED_ERROR)
  else
    match st.getFileInfo name with
    | none => st.downloadFile name size hash
    | some fi =>
      if fi.hash ≠ hash then st.sendStatus name (.err .FILE_HASH_MISMATCH)
      else st.sendStatus name (.status .FILE_READY)

/-- FileDownloadService::abortDownload: when the download is active, abort
the downloader, flag the entry completed, report ABORTED, and clear
`m_activeDownload`; otherwise do nothing. -/
def FDState.abortDownload (st : FDState) (fileName : String) : FDState :=
  match st.activeDownloads.find? (fun p => p.1 == fileName) with
  | some _ =>
    { (st.flagCompletedDownload fileName).sendStatus fileName (.status .ABORTED) with
      activeDownload := "" }
  | none => st

/-- One pass of FileDownloadService::clearDownloads (the garbage-collector
worker): erase every entry whose completed flag is set. -/
def FDState.gcStep (st : FDState) : FDState :=
  { st with activeDownloads := st.activeDownloads.filter (fun p => !p.2.completed) }

/-- FileDownloadService::sendFileListUpdate (reached through sendFileList and
the command buffer): emit the current file list. -/
def FDState.sendFileListUpdate (st : FDState) : FDState :=
  { st with out := st.out ++ [.fileListUpdate (st.fileRepo.map (fun fi => fi.name))] }

/-- The C++ null-pointer dereference made explicit. -/
inductive NullDeref
  | fileInfo
deriving DecidableEq

/-- FileDownloadService::deleteFile: when the repository has no FileInfo for
the name the code logs "can't delete" but does not return — the next
statement reads `info->path` from the null pointer, modelled as the explicit
error.  With a record present, a failed filesystem delete just resends the
file list; a successful one also removes the repository entry. -/
def FDState.deleteFileOp (st : FDState) (fsDeleteOk : String → Bool)
    (fileName : String) : Except NullDeref FDState :=
  match st.getFileInfo fileName with
  | none => .error .fileInfo
  | some info =>
    if !(fsDeleteOk info.path) then .ok st.sendFileListUpdate
    else
      .ok ({ st with
        fileRepo := st.fileRepo.filter (fun fi => !(fi.name == fileName)) }).sendFileListUpdate

/-! ### C3, C7 and C10 -/

/-- C3: a FileUploadInitiate whose declared total size exceeds maxFileSize
starts no chunked transfer — no FilePacketRequest is emitted — and an
UNSUPPORTED_FILE_SIZE error status is reported to the platform; a size
within the bound starts the transfer by requesting chunk 0.  The size check
lives in the FileDownloader, which is modelled from the spec (see
`FDState.downloaderStart`). -/
theorem c3_upload_initiate_size_bound (st : FDState) (name hash : String) (size : Nat)
    (hname : name ≠ "") (hsize : size ≠ 0) (hhash : hash ≠ "")
    (hinfo : st.getFileInfo name = none)
    (hactive : st.activeDownloads.find? (fun p => p.1 == name) = none) :
    (st.maxFileSize < size →
      (st.handleFileUploadInitiate name size hash).out =
        st.out ++ [.uploadStatus name (.status .FILE_TRANSFER),
          .uploadStatus name (.err .UNSUPPORTED_FILE_SIZE)]) ∧
    (size ≤ st.maxFileSize →
      (st.handleFileUploadInitiate name size hash).out =
        st.out ++ [.uploadStatus name (.status .FILE_TRANSFER),
          .packetRequest name 0]) := by
  constructor
  · intro hlt
    simp only [FDState.handleFileUploadInitiate, if_neg hname, if_neg hsize,
      if_neg hhash, hinfo]
    simp only [FDState.downloadFile, hactive]
    simp [FDState.downloaderStart, FDState.downloadFailed,
      FDState.flagCompletedDownload, FDState.sendStatus, hlt, List.append_assoc]
  · intro hle
    have hnlt : ¬ st.maxFileSize < size := not_lt.mpr hle
    simp only [FDState.handleFileUploadInitiate, if_neg hname, if_neg hsize,
      if_neg hhash, hinfo]
    simp only [FDState.downloadFile, hactive]
    simp [FDState.downloaderStart, FDState.sendStatus, hnlt, List.append_assoc]

/-- Witness for C3: a 2048-byte initiate against a 1024-byte limit yields
FILE_TRANSFER then UNSUPPORTED_FILE_SIZE and no packet request. -/
theorem c3_upload_initiate_size_bound_witness :
    ((FDState.mk 1024 256 [] "" [] []).handleFileUploadInitiate "fw.bin" 2048 "h").out =
      [.uploadStatus "fw.bin" (.status .FILE_TRANSFER),
        .uploadStatus "fw.bin" (.err .UNSUPPORTED_FILE_SIZE)] := by
  have h := (c3_upload_initiate_size_bound (FDState.mk 1024 256 [] "" [] [])
    "fw.bin" "h" 2048 (by decide) (by decide) (by decide) rfl rfl).1 (by decide)
  simpa using h

/-- C7: aborting an active chunked transfer emits FileUploadStatus{ABORTED},
clears `m_activeDownload`, leaves the file repository untouched (no FileInfo
persisted), and flags the entry completed so a garbage-collector pass reaps
it. -/
theorem c7_abort_active_download (st : FDState) (fileName : String) (e : DownloadEntry)
    (hfind : st.activeDownloads.find? (fun p => p.1 == fileName) =
      some (fileName, e)) :
    (st.abortDownload fileName).out =
      st.out ++ [.uploadStatus fileName (.status .ABORTED)] ∧
    (st.abortDownload fileName).activeDownload = "" ∧
    (st.abortDownload fileName).fileRepo = st.fileRepo ∧
    ((st.abortDownload fileName).gcStep).activeDownloads.find?
      (fun p => p.1 == fileName) = none := by
  have habort : st.abortDownload fileName =
      { (st.flagCompletedDownload fileName).sendStatus fileName (.status .ABORTED) with
        activeDownload := "" } := by
    unfold FDState.abortDownload
    rw [hfind]
  rw [habort]
  refine ⟨?_, rfl, rfl, ?_⟩
  · simp [FDState.sendStatus, FDState.flagCompletedDownload]
  · rw [List.find?_eq_none]
    intro p hp
    simp only [FDState.gcStep, FDState.sendStatus, FDState.flagCompletedDownload,
      List.mem_filter] at hp
    obtain ⟨hpmem, hpnc⟩ := hp
    obtain ⟨q, hq, hfq⟩ := List.mem_map.mp hpmem
    by_cases hqk : (q.1 == fileName) = true
    · rw [if_pos hqk] at hfq
      rw [← hfq] at hpnc
      simp at hpnc
    · rw [if_neg (by simpa using hqk)] at hfq
      rw [← hfq]
      simpa using hqk

/-- Witness for C7 at a concrete state with one active download. -/
theorem c7_abort_active_download_witness :
    ((FDState.mk 1024 256 [("fw.bin", DownloadEntry.mk "h" false)] "fw.bin"
        [] []).abortDownload "fw.bin").out =
      [.uploadStatus "fw.bin" (.status .ABORTED)] ∧
    ((FDState.mk 1024 256 [("fw.bin", DownloadEntry.mk "h" false)] "fw.bin"
        [] []).abortDownload "fw.bin").activeDownload = "" := by
  have h := c7_abort_active_download
    (FDState.mk 1024 256 [("fw.bin", DownloadEntry.mk "h" false)] "fw.bin" [] [])
    "fw.bin" (DownloadEntry.mk "h" false) (by decide)
  exact ⟨by simpa using h.1, h.2.1⟩

/-- C10: with no FileInfo record for the requested name, the FileDelete
handler does not return after logging — it reads `info->path` from the
absent record (the modelled null dereference), so the file-list response is
never sent.  This evaluates the embedded handler at the failing input. -/
theorem c10_delete_missing_file_null_deref :
    (FDState.mk 1024 256 [] "" [] []).deleteFileOp (fun _ => true) "missing.bin" =
      Except.error NullDeref.fileInfo := rfl

/-! ## Reconnect loop (Wolk.cpp, connectToPlatform)

Wolk::connectToPlatform pushes a closure onto the command buffer.  The
closure calls connect(); on success it runs notifyPlatformConnected — which
invokes m_platformPublisher->connected() — and on failure it sleeps
RECONNECT_DELAY_MSEC and re-enqueues itself through connectToPlatform.  The
command buffer is a FIFO with a single consumer; other work queued on it is
modelled by opaque `job` commands. -/

def RECONNECT_DELAY_MSEC : Nat := 2000

inductive GwCmd
  | connectPlatform
  | job (n : Nat)
deriving DecidableEq

inductive GwEvent
  | sleepMs (ms : Nat)
  | platformPublisherConnected
  | jobRun (n : Nat)
deriving DecidableEq

structure GwState where
  buffer : List GwCmd
  events : List GwEvent
deriving DecidableEq

/-- Wolk::connectToPlatform via addToCommandBuffer: enqueue the connect
closure at the back of the FIFO. -/
def GwState.connectToPlatform (st : GwState) : GwState :=
  { st with buffer := st.buffer ++ [.connectPlatform] }

/-- One step of the command-buffer consumer; `connectOk` is the outcome of
m_platformConnectivityService->connect() for this attempt. -/
def GwState.runCommand (st : GwState) (connectOk : Bool) : GwState :=
  match st.buffer with
  | [] => st
  | c :: rest =>
    match c with
    | .job n => { buffer := rest, events := st.events ++ [.jobRun n] }
    | .connectPlatform =>
      if connectOk then
        { buffer := rest, events := st.events ++ [.platformPublisherConnected] }
      else
        GwState.connectToPlatform
          { buffer := rest, events := st.events ++ [.sleepMs RECONNECT_DELAY_MSEC] }

/-- Run the consumer through a list of connect outcomes, one per executed
command. -/
def GwState.run (st : GwState) : List Bool → GwState
  | [] => st
  | b :: bs => (st.runCommand b).run bs

theorem connect_mem_runCommand_false (st : GwState)
    (h : GwCmd.connectPlatform ∈ st.buffer) :
    GwCmd.connectPlatform ∈ (st.runCommand false).buffer := by
  rcases hb : st.buffer with _ | ⟨c, rest⟩
  · rw [hb] at h
    exact absurd h (List.not_mem_nil _)
  · rw [hb] at h
    cases c with
    | job n =>
      have hmem : GwCmd.connectPlatform ∈ rest := by
        rcases List.mem_cons.mp h with hc | hr
        · exact absurd hc.symm (by simp)
        · exact hr
      simp [GwState.runCommand, hb, hmem]
    | connectPlatform =>
      simp [GwState.runCommand, hb, GwState.connectToPlatform]

theorem connect_mem_run_all_false :
    ∀ (bs : List Bool), (∀ b ∈ bs, b = false) → ∀ st : GwState,
      GwCmd.connectPlatform ∈ st.buffer →
      GwCmd.connectPlatform ∈ (st.run bs).buffer
  | [], _, st, h => h
  | b :: bs, hall, st, h => by
    have hb : b = false := hall b (List.mem_cons_self b bs)
    subst hb
    exact connect_mem_run_all_false bs
      (fun x hx => hall x (List.mem_cons_of_mem _ hx)) _
      (connect_mem_runCommand_false st h)

/-- C4: when connect() returns false the closure sleeps 2000 ms
(RECONNECT_DELAY_MSEC) and re-enqueues the retry at the back of the command
buffer, so every other command already queued runs before the retry; after
any number of failed attempts a retry is still queued, so the gateway never
gives up; and the first successful connect invokes the platform publisher's
connected() notification. -/
theorem c4_reconnect_policy :
    (∀ (st : GwState) (rest : List GwCmd), st.buffer = .connectPlatform :: rest →
      st.runCommand false =
        ⟨rest ++ [.connectPlatform],
          st.events ++ [.sleepMs RECONNECT_DELAY_MSEC]⟩) ∧
    (∀ (st : GwState) (rest : List GwCmd), st.buffer = .connectPlatform :: rest →
      st.runCommand true = ⟨rest, st.events ++ [.platformPublisherConnected]⟩) ∧
    (∀ bs : List Bool, (∀ b ∈ bs, b = false) → ∀ st : GwState,
      GwCmd.connectPlatform ∈ st.buffer →
      GwCmd.connectPlatform ∈ (st.run bs).buffer) ∧
    RECONNECT_DELAY_MSEC = 2000 := by
  refine ⟨?_, ?_, connect_mem_run_all_false, rfl⟩
  · intro st rest hb
    simp [GwState.runCommand, hb, GwState.connectToPlatform]
  · intro st rest hb
    simp [GwState.runCommand, hb]

/-- Witness for C4 at a concrete buffer holding the connect closure and one
other queued job. -/
theorem c4_reconnect_policy_witness :
    (GwState.mk [.connectPlatform, .job 7] []).runCommand false =
      GwState.mk [.job 7, .connectPlatform] [.sleepMs 2000] ∧
    GwCmd.connectPlatform ∈
      ((GwState.mk [.connectPlatform] []).run [false, false, false]).buffer ∧
    (GwState.mk [.connectPlatform] []).runCommand true =
      GwState.mk [] [.platformPublisherConnected] := by
  refine ⟨?_, ?_, ?_⟩
  · have h := c4_reconnect_policy.1 (GwState.mk [.connectPlatform, .job 7] []) [.job 7] rfl
    simpa using h
  · exact c4_reconnect_policy.2.2.1 [false, false, false] (by decide)
      (GwState.mk [.connectPlatform] []) (by decide)
  · have h := c4_reconnect_policy.2.1 (GwState.mk [.connectPlatform] []) [] rfl
    simpa using h

/-! ## Device registration service (spec §4.7)

DeviceRegistrationService.cpp is not among the sources — only its tests are —
so the service is modelled from the spec, rules 1–4 of §4.7.  The embedded
`Repo` plays the role of the SQLite device repository the tests instantiate. -/

structure RegRequest where
  dname : String
  key : String
  manifest : DeviceManifest
deriving DecidableEq

inductive PlatformMsg
  | registrationRequest (gatewayKey deviceKey : String) (r : RegRequest)
deriving DecidableEq

structure RegService where
  gatewayKey : String
  repo : Repo
  postponed : List RegRequest
  awaiting : List (String × RegRequest)
  platformOut : List PlatformMsg
  callbacks : List (String × Bool)
deriving DecidableEq

/-- Modelled from the spec: forward a registration request to the platform
and record the pending entry awaiting the response (§4.7 state
"request, deviceKey, awaitingResponse"). -/
def RegService.forwardRequest (s : RegService) (r : RegRequest) : RegService :=
  { s with
    platformOut := s.platformOut ++ [.registrationRequest s.gatewayKey r.key r],
    awaiting := s.awaiting ++ [(r.key, r)] }

/-- Modelled from the spec: DeviceRegistrationService handling of a
device-side registration request, rules 1–3 of §4.7.  Rule 3: a request
whose device is already stored with the same template digest is dropped,
with a different digest it goes on.  Rule 2: the gateway's own request is
always forwarded immediately.  Rule 1: a child request is forwarded only if
the gateway itself is registered in the repository, otherwise queued until
gateway registration succeeds. -/
def RegService.deviceRegistrationRequestReceived (s : RegService) (r : RegRequest) :
    RegService :=
  let forwardOrQueue :=
    if r.key = s.gatewayKey then s.forwardRequest r
    else if s.repo.containsDeviceWithKey s.gatewayKey then s.forwardRequest r
    else { s with postponed := s.postponed ++ [r] }
  match s.repo.findByDeviceKey r.key with
  | some d =>
    if calculateSha256Device d.manifest = calculateSha256Device r.manifest then s
    else forwardOrQueue
  | none => forwardOrQueue

/-- Modelled from the spec: handling a successful platform registration
response, rule 4 of §4.7: the device is written to the repository with the
submitted template and onDeviceRegistered(key, isGateway) is invoked; once
the gateway's own registration succeeds, the queued child requests are
forwarded in order (rule 1). -/
def RegService.registrationResponseOkReceived (s : RegService) (k : String) :
    RegService :=
  match s.awaiting.find? (fun p => p.1 == k) with
  | none => s
  | some p =>
    let s1 : RegService :=
      { s with
        repo := s.repo.save ⟨p.2.dname, p.2.key, p.2.manifest⟩,
        awaiting := s.awaiting.filter (fun q => !(q.1 == k)),
        callbacks := s.callbacks ++ [(k, k == s.gatewayKey)] }
    if k = s.gatewayKey then
      s1.postponed.foldl (fun acc r => acc.forwardRequest r) { s1 with postponed := [] }
    else s1

/-- C2: a child registration request is forwarded iff the gateway is already
in the repository, otherwise it is queued; the gateway's own request is
always forwarded immediately; and in the buffered scenario (empty
repository, child request, then gateway request and platform OK) the
platform sees exactly the gateway request followed by the queued child
request. -/
theorem c2_registration_buffering (gw ck gn cn : String)
    (mg mc : DeviceManifest) (hck : ck ≠ gw) :
    ((RegService.mk gw emptyRepo [] [] [] []).deviceRegistrationRequestReceived
        ⟨cn, ck, mc⟩).platformOut = [] ∧
    (((RegService.mk gw emptyRepo [] [] [] []).deviceRegistrationRequestReceived
        ⟨cn, ck, mc⟩).deviceRegistrationRequestReceived
        ⟨gn, gw, mg⟩).platformOut =
      [.registrationRequest gw gw ⟨gn, gw, mg⟩] ∧
    ((((RegService.mk gw emptyRepo [] [] [] []).deviceRegistrationRequestReceived
        ⟨cn, ck, mc⟩).deviceRegistrationRequestReceived
        ⟨gn, gw, mg⟩).registrationResponseOkReceived gw).platformOut =
      [.registrationRequest gw gw ⟨gn, gw, mg⟩,
        .registrationRequest gw ck ⟨cn, ck, mc⟩] ∧
    (∀ (s : RegService) (r : RegRequest),
      s.repo.findByDeviceKey r.key = none → r.key ≠ s.gatewayKey →
      (s.repo.containsDeviceWithKey s.gatewayKey = true →
        (s.deviceRegistrationRequestReceived r).platformOut =
          s.platformOut ++ [.registrationRequest s.gatewayKey r.key r]) ∧
      (s.repo.containsDeviceWithKey s.gatewayKey = false →
        (s.deviceRegistrationRequestReceived r).platformOut = s.platformOut ∧
        (s.deviceRegistrationRequestReceived r).postponed = s.postponed ++ [r])) ∧
    (∀ (s : RegService) (r : RegRequest),
      r.key = s.gatewayKey → s.repo.findByDeviceKey r.key = none →
      (s.deviceRegistrationRequestReceived r).platformOut =
        s.platformOut ++ [.registrationRequest s.gatewayKey r.key r]) := by
  refine ⟨?_, ?_, ?_, ?_, ?_⟩
  · simp [RegService.deviceRegistrationRequestReceived, RegService.forwardRequest,
      Repo.findByDeviceKey, Repo.containsDeviceWithKey, emptyRepo, hck]
  · simp [RegService.deviceRegistrationRequestReceived, RegService.forwardRequest,
      Repo.findByDeviceKey, Repo.containsDeviceWithKey, emptyRepo, hck]
  · simp [RegService.deviceRegistrationRequestReceived,
      RegService.registrationResponseOkReceived, RegService.forwardRequest,
      Repo.findByDeviceKey, Repo.containsDeviceWithKey, emptyRepo, hck]
  · intro s r hfind hkey
    constructor
    · intro hcont
      simp [RegService.deviceRegistrationRequestReceived, hfind, hkey,
        RegService.forwardRequest, hcont]
    · intro hcont
      constructor <;>
        simp [RegService.deviceRegistrationRequestReceived, hfind, hkey,
          RegService.forwardRequest, hcont]
  · intro s r hkey hfind
    rw [hkey] at hfind
    simp [RegService.deviceRegistrationRequestReceived, hfind, hkey,
      RegService.forwardRequest]

/-- Witness for C2 with concrete keys "GW" and "child_X". -/
theorem c2_registration_buffering_witness :
    ((RegService.mk "GW" emptyRepo [] [] [] []).deviceRegistrationRequestReceived
        ⟨"Child", "child_X", ⟨"m", "d", "p", "f", [], [], [], []⟩⟩).platformOut = [] ∧
    ((((RegService.mk "GW" emptyRepo [] [] [] []).deviceRegistrationRequestReceived
        ⟨"Child", "child_X", ⟨"m", "d", "p", "f", [], [], [], []⟩⟩
        ).deviceRegistrationRequestReceived
        ⟨"Gateway", "GW", ⟨"g", "d", "p", "f", [], [], [], []⟩⟩
        ).registrationResponseOkReceived "GW").platformOut =
      [.registrationRequest "GW" "GW"
          ⟨"Gateway", "GW", ⟨"g", "d", "p", "f", [], [], [], []⟩⟩,
        .registrationRequest "GW" "child_X"
          ⟨"Child", "child_X", ⟨"m", "d", "p", "f", [], [], [], []⟩⟩] := by
  have h := c2_registration_buffering "GW" "child_X" "Gateway" "Child"
    ⟨"g", "d", "p", "f", [], [], [], []⟩ ⟨"m", "d", "p", "f", [], [], [], []⟩
    (by decide)
  exact ⟨h.1, h.2.2.1⟩

/-- C6: a registration request for a device already in the repository with
the same template digest is dropped entirely (zero outbound platform
messages); with a different digest (and the gateway registered) it is
forwarded to the platform. -/
theorem c6_registration_idempotence (s : RegService) (d : DetailedDevice)
    (r : RegRequest)
    (hfind : s.repo.findByDeviceKey r.key = some d) :
    (calculateSha256Device d.manifest = calculateSha256Device r.manifest →
      s.deviceRegistrationRequestReceived r = s) ∧
    (calculateSha256Device d.manifest ≠ calculateSha256Device r.manifest →
      s.repo.containsDeviceWithKey s.gatewayKey = true →
      (s.deviceRegistrationRequestReceived r).platformOut =
        s.platformOut ++ [.registrationRequest s.gatewayKey r.key r]) := by
  constructor
  · intro hdig
    simp [RegService.deviceRegistrationRequestReceived, hfind, hdig]
  · intro hdig hcont
    by_cases hkey : r.key = s.gatewayKey
    · rw [hkey] at hfind
      simp [RegService.deviceRegistrationRequestReceived, hfind, hdig, hkey,
        RegService.forwardRequest]
    · simp [RegService.deviceRegistrationRequestReceived, hfind, hdig, hkey, hcont,
        RegService.forwardRequest]

/-- Witness for C6 at a concrete repository holding "GW" and "dev": the
identical request is a no-op, the changed-template request is forwarded. -/
theorem c6_registration_idempotence_witness :
    (RegService.mk "GW"
        (Repo.mk [⟨0, "s", ⟨"m", "d", "p", "f", [], [], [], []⟩⟩]
          [⟨"GW", "G", 0⟩, ⟨"dev", "D", 0⟩] 1)
        [] [] [] []).deviceRegistrationRequestReceived
      ⟨"D", "dev", ⟨"m", "d", "p", "f", [], [], [], []⟩⟩ =
      RegService.mk "GW"
        (Repo.mk [⟨0, "s", ⟨"m", "d", "p", "f", [], [], [], []⟩⟩]
          [⟨"GW", "G", 0⟩, ⟨"dev", "D", 0⟩] 1)
        [] [] [] [] ∧
    ((RegService.mk "GW"
        (Repo.mk [⟨0, "s", ⟨"m", "d", "p", "f", [], [], [], []⟩⟩]
          [⟨"GW", "G", 0⟩, ⟨"dev", "D", 0⟩] 1)
        [] [] [] []).deviceRegistrationRequestReceived
      ⟨"D", "dev", ⟨"m2", "d", "p", "f", [], [], [], []⟩⟩).platformOut =
      [.registrationRequest "GW" "dev"
        ⟨"D", "dev", ⟨"m2", "d", "p", "f", [], [], [], []⟩⟩] := by
  constructor
  · exact (c6_registration_idempotence
      (RegService.mk "GW"
        (Repo.mk [⟨0, "s", ⟨"m", "d", "p", "f", [], [], [], []⟩⟩]
          [⟨"GW", "G", 0⟩, ⟨"dev", "D", 0⟩] 1)
        [] [] [] [])
      ⟨"D", "dev", ⟨"m", "d", "p", "f", [], [], [], []⟩⟩
      ⟨"D", "dev", ⟨"m", "d", "p", "f", [], [], [], []⟩⟩ (by decide)).1 rfl
  · have h := (c6_registration_idempotence
      (RegService.mk "GW"
        (Repo.mk [⟨0, "s", ⟨"m", "d", "p", "f", [], [], [], []⟩⟩]
          [⟨"GW", "G", 0⟩, ⟨"dev", "D", 0⟩] 1)
        [] [] [] [])
      ⟨"D", "dev", ⟨"m", "d", "p", "f", [], [], [], []⟩⟩
      ⟨"D", "dev", ⟨"m2", "d", "p", "f", [], [], [], []⟩⟩ (by decide)).2
      (by decide) (by decide)
    simpa using h

/-! ## Startup configuration loading (Application.cpp, Configuration.cpp)

FileSystemUtils and the vendored json.hpp parser are not among the sources.
The filesystem state is a small record, and the parse outcome of the file
content is modelled from the spec (§6 CLI, §7 "Parse failures of
configuration at startup are fatal (exit)"): malformed content, or content
missing a required field, fails to parse, and the failure is a fatal
configuration-load failure. -/

inductive SubdeviceManagement
  | PLATFORM
  | GATEWAY
deriving DecidableEq

structure RawConfig where
  key : String
  password : String
  platformMqttUri : String
  localMqttUri : String
  subdeviceManagement : String
  manifest : DeviceManifest
  readingsInterval : Option Nat
  generator : Option String
  keepAlive : Option Bool
  platformTrustStore : Option String
deriving DecidableEq

/-- Modelled from the spec: the parse outcome of the configuration file's
content — json.hpp is not among the sources.  `malformed` covers malformed
JSON and content missing a required field. -/
inductive FileContent
  | malformed
  | wellFormed (c : RawConfig)
deriving DecidableEq

structure FileSys where
  present : Bool
  readable : Bool
  content : FileContent
deriving DecidableEq

inductive ConfigError
  | fileNotPresent
  | unreadable
  | parseFailure
  | invalidSubdeviceManagement
deriving DecidableEq

structure GatewayConfiguration where
  key : String
  password : String
  platformMqttUri : String
  localMqttUri : String
  management : SubdeviceManagement
  manifest : DeviceManifest
  interval : Nat
  incremental : Bool
  keepAlive : Option Bool
  platformTrustStore : Option String
deriving DecidableEq

def toUpper (s : String) : String := s.map Char.toUpper

def mkGatewayConfiguration (c : RawConfig) (m : SubdeviceManagement) :
    GatewayConfiguration :=
  ⟨c.key, c.password, c.platformMqttUri, c.localMqttUri, m, c.manifest,
    c.readingsInterval.getD 1000, c.generator == some "incremental",
    c.keepAlive, c.platformTrustStore⟩

/-- GatewayConfiguration::fromJson: a missing or unreadable file throws; the
content is parsed (parse failures propagate as configuration-load failures);
subdeviceManagement is upper-cased and must be PLATFORM or GATEWAY;
readingsInterval defaults to 1000; generator "incremental" selects the
incremental value generator. -/
def fromJson (fs : FileSys) : Except ConfigError GatewayConfiguration :=
  if !fs.present then .error .fileNotPresent
  else if !fs.readable then .error .unreadable
  else
    match fs.content with
    | .malformed => .error .parseFailure
    | .wellFormed c =>
      if toUpper c.subdeviceManagement = "PLATFORM" then
        .ok (mkGatewayConfiguration c .PLATFORM)
      else if toUpper c.subdeviceManagement = "GATEWAY" then
        .ok (mkGatewayConfiguration c .GATEWAY)
      else .error .invalidSubdeviceManagement

inductive MainOutcome
  | exitCode (code : Int)
  | runsGateway (cfg : GatewayConfiguration)
deriving DecidableEq

/-- main (Application.cpp): fewer than two argv entries exits -1; a
configuration-load failure is caught and the process exits -1 before any
gateway is built; otherwise the gateway is built from the configuration. -/
def mainOutcome (argc : Nat) (fs : FileSys) : MainOutcome :=
  if argc < 2 then .exitCode (-1)
  else
    match fromJson fs with
    | .error _ => .exitCode (-1)
    | .ok cfg => .runsGateway cfg

/-- C9: whenever the configuration file is missing, unreadable, or its
content fails to load (malformed JSON included), startup terminates with
exit code -1 and never proceeds to build the gateway. -/
theorem c9_config_failure_exits (argc : Nat) (fs : FileSys) (hargc : 2 ≤ argc) :
    (fs.present = false ∨ fs.readable = false ∨ fs.content = .malformed →
      ∃ e, fromJson fs = .error e) ∧
    (∀ e, fromJson fs = .error e →
      mainOutcome argc fs = .exitCode (-1) ∧
      ∀ cfg, mainOutcome argc fs ≠ .runsGateway cfg) := by
  constructor
  · intro h
    unfold fromJson
    rcases h with h | h | h
    · exact ⟨.fileNotPresent, by simp [h]⟩
    · cases hp : fs.present with
      | false => exact ⟨.fileNotPresent, by simp [hp]⟩
      | true => exact ⟨.unreadable, by simp [hp, h]⟩
    · cases hp : fs.present with
      | false => exact ⟨.fileNotPresent, by simp [hp]⟩
      | true =>
        cases hr : fs.readable with
        | false => exact ⟨.unreadable, by simp [hp, hr]⟩
        | true => exact ⟨.parseFailure, by simp [hp, hr, h]⟩
  · intro e herr
    have hmain : mainOutcome argc fs = .exitCode (-1) := by
      unfold mainOutcome
      rw [if_neg (by omega), herr]
    exact ⟨hmain, fun cfg hcfg => by rw [hmain] at hcfg; exact MainOutcome.noConfusion hcfg⟩

/-- Witness for C9: a present, readable file with malformed content exits
with -1. -/
theorem c9_config_failure_exits_witness :
    mainOutcome 2 (FileSys.mk true true .malformed) = .exitCode (-1) := by
  obtain ⟨e, he⟩ := (c9_config_failure_exits 2 (FileSys.mk true true .malformed)
    (by decide)).1 (Or.inr (Or.inr rfl))
  exact ((c9_config_failure_exits 2 (FileSys.mk true true .malformed)
    (by decide)).2 e he).1

end WolkGateway
